import Mathlib

/-
  Verification development for the AmazonSP data-sync repository
  (datatodb: SP-API fetchers, BigTable / Google Sheets / CSV sinks,
  main.py and lambda_function.py orchestrators).

  Shallow embedding: Python dict values are modelled by PyVal; files,
  sheets and side effects are modelled by explicit state / action traces.
-/

namespace AmazonSP

/-- A Python value as it occurs in the records this pipeline handles:
strings, integers, None, dicts (association lists in insertion order)
and lists. -/
inductive PyVal where
  | vstr : String → PyVal
  | vint : Int → PyVal
  | vnone : PyVal
  | vdict : List (String × PyVal) → PyVal
  | vlist : List PyVal → PyVal
deriving Repr

mutual

/-- Python repr() of a value (quotes written via \x27 escapes). -/
def pyRepr : PyVal → String
  | .vstr s => "\x27" ++ s ++ "\x27"
  | .vint n => toString n
  | .vnone => "None"
  | .vdict fields => "\x7b" ++ pyReprFields fields ++ "\x7d"
  | .vlist xs => "[" ++ pyReprList xs ++ "]"

/-- repr of the elements of a Python list, comma separated. -/
def pyReprList : List PyVal → String
  | [] => ""
  | [x] => pyRepr x
  | x :: xs => pyRepr x ++ ", " ++ pyReprList xs

/-- repr of the items of a Python dict, comma separated. -/
def pyReprFields : List (String × PyVal) → String
  | [] => ""
  | [(k, v)] => "\x27" ++ k ++ "\x27: " ++ pyRepr v
  | (k, v) :: rest => "\x27" ++ k ++ "\x27: " ++ pyRepr v ++ ", " ++ pyReprFields rest

end

/-- Python str() of a value: identity on strings, repr-based on
containers, decimal on ints, the word None on None. -/
def pyStr : PyVal → String
  | .vstr s => s
  | v => pyRepr v

/-- Python d.get(key, default) on a dict value; raises AttributeError
(modelled as Except.error) when the receiver is not a dict. -/
def pyGet (v : PyVal) (key : String) (dflt : PyVal) : Except String PyVal :=
  match v with
  | .vdict fields => .ok ((fields.lookup key).getD dflt)
  | _ => .error "AttributeError"

/-- Python d[key] subscription: KeyError when absent, TypeError when the
receiver is not a dict. -/
def pySubscript (v : PyVal) (key : String) : Except String PyVal :=
  match v with
  | .vdict fields =>
    match fields.lookup key with
    | some x => .ok x
    | none => .error "KeyError"
  | _ => .error "TypeError"

/-- Iterating a Python value as a list; TypeError otherwise. -/
def pyAsList (v : PyVal) : Except String (List PyVal) :=
  match v with
  | .vlist xs => .ok xs
  | _ => .error "TypeError"

/-- Viewing a Python value as a dict; AttributeError otherwise. -/
def pyAsDict (v : PyVal) : Except String (List (String × PyVal)) :=
  match v with
  | .vdict fields => .ok fields
  | _ => .error "AttributeError"

/- ===== utils/csv_utils.py ===== -/

mutual

/-- Body of one iteration of CSVUtils._flatten_dict over a (key, value)
item whose full (already joined) key is newKey: dict values recurse,
list values become their str() form, scalars pass through. -/
def flattenVal (separator newKey : String) : PyVal → List (String × PyVal)
  | .vdict fields => flattenFields separator newKey fields
  | .vlist xs => [(newKey, .vstr (pyStr (.vlist xs)))]
  | sc => [(newKey, sc)]

/-- CSVUtils._flatten_dict: walk the items of a dict, prefixing nested
keys with parent_key and the separator. -/
def flattenFields (separator parentKey : String) : List (String × PyVal) → List (String × PyVal)
  | [] => []
  | (k, v) :: rest =>
    flattenVal separator (if parentKey = "" then k else parentKey ++ separator ++ k) v
      ++ flattenFields separator parentKey rest

end

/-- Python dict(items): later occurrences of a key overwrite the earlier
value in place; first-insertion order is kept. -/
def pyDictInsert (acc : List (String × PyVal)) (kv : String × PyVal) : List (String × PyVal) :=
  if (acc.lookup kv.1).isSome then
    acc.map (fun p => if p.1 = kv.1 then (p.1, kv.2) else p)
  else
    acc ++ [kv]

/-- Python dict(items) over a full item list. -/
def pyDictOf (items : List (String × PyVal)) : List (String × PyVal) :=
  items.foldl pyDictInsert []

/-- CSVUtils._flatten_dict called with the default separator and an
empty parent key, returning the final dict(items). -/
def flattenRecord (rec : List (String × PyVal)) : List (String × PyVal) :=
  pyDictOf (flattenFields "_" "" rec)

/-- Lexicographic comparison of character lists by code point, the
order Python sorted() applies to strings. -/
def charListLe : List Char → List Char → Bool
  | [], _ => true
  | _ :: _, [] => false
  | a :: as, b :: bs =>
    if a < b then true
    else if b < a then false
    else charListLe as bs

/-- Python string comparison: lexicographic by code point. -/
def pyStrLe (a b : String) : Bool := charListLe a.data b.data

/-- The ordering relation Python sorted() uses on the fieldnames. -/
def PyStrOrd (a b : String) : Prop := pyStrLe a b = true

instance : DecidableRel PyStrOrd := fun a b => inferInstanceAs (Decidable (pyStrLe a b = true))

/-- The sorted union of the keys of the processed records, as
write_to_csv computes its fieldnames (a set of all keys, then sorted). -/
def csvFieldnames (processed : List (List (String × PyVal))) : List String :=
  List.insertionSort PyStrOrd ((processed.map (fun rec => rec.map Prod.fst)).flatten.dedup)

/-- One row as csv.DictWriter emits it for a record whose keys are all
among the fieldnames: the str() of each present value, restval for
absent columns. -/
def dictRow (fieldnames : List String) (rec : List (String × PyVal)) : List String :=
  fieldnames.map (fun k =>
    match rec.lookup k with
    | some v => pyStr v
    | none => "")

/-- A CSV file on disk: its header line and its data rows. -/
structure CsvFile where
  header : List String
  rows : List (List String)
deriving Repr, DecidableEq

/-- The local filesystem seen by CSVUtils: paths mapped to CSV files. -/
abbrev FileSystem := List (String × CsvFile)

/-- CSVUtils.write_to_csv: empty data returns the empty string and
leaves the filesystem unchanged; otherwise a new timestamped file is
created under the output directory with the sorted union header. -/
def write_to_csv (outputDir : String) (fs : FileSystem) (data : List (List (String × PyVal)))
    (filename : String) (flattenOpt : Bool) (ts : String) : String × FileSystem :=
  if data.isEmpty then ("", fs)
  else
    let filepath := outputDir ++ "/" ++ filename ++ "_" ++ ts ++ ".csv"
    let processed := if flattenOpt then data.map flattenRecord else data
    let fieldnames := csvFieldnames processed
    (filepath, fs ++ [(filepath, ⟨fieldnames, processed.map (dictRow fieldnames)⟩)])

/-- csv.DictWriter writerow semantics: a record holding a key outside
the fieldnames raises ValueError (extrasaction defaults to raise);
otherwise the row is emitted with restval for absent columns. -/
def dictWriterRow (fieldnames : List String) (rec : List (String × PyVal)) :
    Except String (List String) :=
  if rec.all (fun kv => fieldnames.contains kv.1) then .ok (dictRow fieldnames rec)
  else .error "ValueError"

/-- csv.DictWriter writerows: rows are written one at a time; the rows
before the first offending record are on disk when ValueError is
raised. -/
def writeRowsPartial (fieldnames : List String) : List (List (String × PyVal)) →
    List (List String) × Option String
  | [] => ([], none)
  | r :: rs =>
    match dictWriterRow fieldnames r with
    | .ok row =>
      let rest := writeRowsPartial fieldnames rs
      (row :: rest.1, rest.2)
    | .error e => ([], some e)

/-- CSVUtils.append_to_csv on a file state (none when the path does not
exist yet): existing files keep their own header as the fieldnames; a
fresh file gets the sorted union of the batch keys. Returns the file
state afterwards and the exception, if one was raised. -/
def append_to_csv (existing : Option CsvFile) (data : List (List (String × PyVal)))
    (flattenOpt : Bool) : Option CsvFile × Option String :=
  if data.isEmpty then (existing, none)
  else
    let processed := if flattenOpt then data.map flattenRecord else data
    match existing with
    | some f =>
      let written := writeRowsPartial f.header processed
      (some ⟨f.header, f.rows ++ written.1⟩, written.2)
    | none =>
      let fieldnames := csvFieldnames processed
      (some ⟨fieldnames, processed.map (dictRow fieldnames)⟩, none)

/- ===== utils/sheets_utils.py ===== -/

/-- A record as handed to the spreadsheet adapter: an association list
of column name to the cell value that ends up written. -/
abbrev SheetRec := List (String × String)

/-- One sheet of the spreadsheet: the cell at (row, column), zero
based, or none when empty. -/
abbrev Sheet := Nat → Nat → Option String

/-- The completely empty sheet. -/
def emptySheet : Sheet := fun _ _ => none

/-- pandas DataFrame(list-of-dicts) column order: every key in order of
first appearance across the records. -/
def dfColumns (data : List SheetRec) : List String :=
  data.foldl (fun acc rec =>
    rec.foldl (fun a kv => if a.contains kv.1 then a else a ++ [kv.1]) acc) []

/-- The value grid sent to the Sheets API: the DataFrame header row
followed by one row per record; a record missing a column yields the
NaN cell pandas puts there. -/
def dfGrid (data : List SheetRec) : List (List String) :=
  dfColumns data :: data.map (fun rec => (dfColumns data).map (fun k => (rec.lookup k).getD "nan"))

/-- values().clear on the range SheetName!A1:ZZ — every row, but only
the first 702 columns (A through ZZ). -/
def clearRange (s : Sheet) : Sheet := fun r c => if c < 702 then none else s r c

/-- values().update at A1 with a value grid: cells covered by the grid
take its values, everything else is untouched. -/
def updateCells (s : Sheet) (g : List (List String)) : Sheet := fun r c =>
  match g.get? r with
  | some row =>
    match row.get? c with
    | some v => some v
    | none => s r c
  | none => s r c

/-- GoogleSheetsUtils.create_or_update_sheet on one named sheet: clear
A1:ZZ, then update with the DataFrame grid of the batch. -/
def create_or_update_sheet (s : Sheet) (data : List SheetRec) : Sheet :=
  updateCells (clearRange s) (dfGrid data)

/- ===== models/orders.py and models/finances.py ===== -/

/-- The upstream SP-API state for one endpoint: the full paginated
result set (a list of pages of raw record dicts), and the exception the
single issued request raises, if any. -/
structure SpApiPaged where
  pages : List (List (List (String × PyVal)))
  fail : Option String

/-- The response payload of the one orders request the code issues:
only the first page, plus a NextToken field when more pages exist
(which the code never reads). -/
def ordersApiCall (u : SpApiPaged) : Except String PyVal :=
  match u.fail with
  | some e => .error e
  | none =>
    .ok (.vdict (("Orders", .vlist ((u.pages.headD []).map .vdict)) ::
      (if u.pages.length > 1 then [("NextToken", .vstr "token")] else [])))

/-- The loop body of OrdersManager.get_orders over one raw order dict:
order.get of each field, with the OrderTotal.get chain. -/
def normalizeOrder (raw : List (String × PyVal)) : Except String (List (String × PyVal)) := do
  let total ← pyGet ((raw.lookup "OrderTotal").getD (.vdict [])) "Amount" .vnone
  .ok [("order_id", (raw.lookup "AmazonOrderId").getD .vnone),
       ("purchase_date", (raw.lookup "PurchaseDate").getD .vnone),
       ("order_status", (raw.lookup "OrderStatus").getD .vnone),
       ("order_total", total),
       ("shipping_address", (raw.lookup "ShippingAddress").getD .vnone)]

/-- OrdersManager.get_orders: one request, iterate
response.payload subscripted at Orders, build the normalized list; any
exception in the try block yields the empty list. -/
def get_orders (u : SpApiPaged) : List (List (String × PyVal)) :=
  match (do
    let resp ← ordersApiCall u
    let ov ← pySubscript resp "Orders"
    let elems ← pyAsList ov
    elems.mapM (fun e => do
      let d ← pyAsDict e
      normalizeOrder d)) with
  | .ok l => l
  | .error _ => []

/-- The response payload of the one financial-events request. -/
def financesApiCall (u : SpApiPaged) : Except String PyVal :=
  match u.fail with
  | some e => .error e
  | none =>
    .ok (.vdict (("FinancialEvents", .vlist ((u.pages.headD []).map .vdict)) ::
      (if u.pages.length > 1 then [("NextToken", .vstr "token")] else [])))

/-- The loop body of FinancesManager.get_financial_events over one raw
event dict, with the two Amount.get chains. -/
def normalizeFinancialEvent (raw : List (String × PyVal)) : Except String (List (String × PyVal)) := do
  let amount ← pyGet ((raw.lookup "Amount").getD (.vdict [])) "Amount" .vnone
  let currency ← pyGet ((raw.lookup "Amount").getD (.vdict [])) "CurrencyCode" .vnone
  .ok [("event_type", (raw.lookup "FinancialEventType").getD .vnone),
       ("posted_date", (raw.lookup "PostedDate").getD .vnone),
       ("amount", amount),
       ("currency", currency)]

/-- FinancesManager.get_financial_events: one request,
payload.get of FinancialEvents with default empty list, normalize; any
exception in the try block yields the empty list. -/
def get_financial_events (u : SpApiPaged) : List (List (String × PyVal)) :=
  match (do
    let resp ← financesApiCall u
    let ev ← pyGet resp "FinancialEvents" (.vlist [])
    let elems ← pyAsList ev
    elems.mapM (fun e => do
      let d ← pyAsDict e
      normalizeFinancialEvent d)) with
  | .ok l => l
  | .error _ => []

/-- The fetch stage of main: orders first, then financial events, from
two independent upstream endpoints. -/
def fetchStage (uo uf : SpApiPaged) : List (List (String × PyVal)) × List (List (String × PyVal)) :=
  (get_orders uo, get_financial_events uf)

/-- Processing one page of raw orders the way the loop body does,
discarding everything when any record raises. -/
def ordersOfPage (page : List (List (String × PyVal))) : List (List (String × PyVal)) :=
  match page.mapM normalizeOrder with
  | .ok l => l
  | .error _ => []

/-- The ground truth the claim asks for: every record across every page
of the upstream result set, normalized. -/
def ordersAllPages (u : SpApiPaged) : List (List (String × PyVal)) :=
  ordersOfPage u.pages.flatten

/-- Processing one page of raw financial events. -/
def financialEventsOfPage (page : List (List (String × PyVal))) : List (List (String × PyVal)) :=
  match page.mapM normalizeFinancialEvent with
  | .ok l => l
  | .error _ => []

/-- Every financial event across every page, normalized. -/
def financialEventsAllPages (u : SpApiPaged) : List (List (String × PyVal)) :=
  financialEventsOfPage u.pages.flatten

/- ===== main.py and lambda_function.py orchestration ===== -/

/-- One observable side effect of a run: a committed BigTable row, a
create_or_update_sheet call, or a send_email call. -/
inductive Act where
  | btWrite : String → String → Act
  | sheetUpdate : String → Nat → Act
  | emailSend : String → Act
deriving Repr, DecidableEq

/-- The environment one run of main() or process_data() executes in:
which constructor and I/O steps raise, the fetched batches (the
fetchers themselves never raise, see get_orders), the uuid4 draw
sequence and the current date. -/
structure MainEnv where
  authInitFails : Bool
  gcInitFails : Bool
  sheetsInitFails : Bool
  notifInitFails : Bool
  createTableFails : Bool
  orders : List (List (String × String))
  events : List (List (String × String))
  btOrdersFailAt : Option Nat
  btFinancesFailAt : Option Nat
  sheetOrdersFails : Bool
  sheetFinancesFails : Bool
  notifySendFails : Bool
  errorNotifySendFails : Bool
  uuids : Nat → String
  today : String

/-- Subject line of the success notification. -/
def okSubj : String := "Amazon SP-API Data Sync Completed"

/-- Subject line of the failure notification. -/
def errSubj : String := "ERROR: Amazon SP-API Data Sync Failed"

/-- The row key of an order: order_ followed by the record
subscripted at order_id (KeyError when absent). -/
def orderKeyOf (_i : Nat) (r : List (String × String)) : Except String String :=
  match r.lookup "order_id" with
  | some v => .ok ("order_" ++ v)
  | none => .error "KeyError"

/-- The row key of a financial event: finance_ followed by a fresh
uuid4 hex draw — the i-th draw of this run, independent of the record. -/
def financeKeyOf (uuids : Nat → String) (i : Nat) (_r : List (String × String)) :
    Except String String :=
  .ok ("finance_" ++ uuids i)

/-- The per-record write loop against one BigTable table: rows commit
one at a time until a key computation or the write at the failure index
raises; returns the committed writes and the exception, if any. -/
def btLoopGo (table : String) (keyOf : Nat → List (String × String) → Except String String)
    (failAt : Option Nat) : Nat → List (List (String × String)) → List Act × Option String
  | _, [] => ([], none)
  | i, r :: rs =>
    match keyOf i r with
    | .error e => ([], some e)
    | .ok key =>
      if failAt = some i then ([], some "BigtableError")
      else
        let rest := btLoopGo table keyOf failAt (i + 1) rs
        (Act.btWrite table key :: rest.1, rest.2)

/-- The orders write loop of a run. -/
def ordersBtLoop (env : MainEnv) : List Act × Option String :=
  btLoopGo "amazon_orders" orderKeyOf env.btOrdersFailAt 0 env.orders

/-- The financial-events write loop of a run. -/
def financesBtLoop (env : MainEnv) : List Act × Option String :=
  btLoopGo "amazon_finances" (financeKeyOf env.uuids) env.btFinancesFailAt 0 env.events

/-- The except-block of main(): send the error notification (the
notification manager is bound by the time this path is reachable) and
re-raise — the notification exception replaces the original one when
send_email itself raises. -/
def mainFail (env : MainEnv) (tr : List Act) (orig : String) : List Act × Except String Unit :=
  (tr ++ [Act.emailSend errSubj],
   .error (if env.errorNotifySendFails then "NotificationError" else orig))

/-- main() of main.py: construct the four utilities, create the tables,
write orders then financial events to BigTable, update the two
date-scoped sheets, send the success notification; any exception lands
in the single except block. A failure before the NotificationManager
assignment leaves the name notification unbound, so the except block
itself raises NameError without sending anything. -/
def mainRun (env : MainEnv) : List Act × Except String Unit :=
  if env.authInitFails then ([], .error "NameError")
  else if env.gcInitFails then ([], .error "NameError")
  else if env.sheetsInitFails then ([], .error "NameError")
  else if env.notifInitFails then ([], .error "NameError")
  else if env.createTableFails then mainFail env [] "TableError"
  else
    match ordersBtLoop env with
    | (acts1, some e) => mainFail env acts1 e
    | (acts1, none) =>
      match financesBtLoop env with
      | (acts2, some e) => mainFail env (acts1 ++ acts2) e
      | (acts2, none) =>
        let tr := acts1 ++ acts2
        let actO := Act.sheetUpdate ("Orders_" ++ env.today) env.orders.length
        if env.sheetOrdersFails then mainFail env (tr ++ [actO]) "SheetsError"
        else
          let actF := Act.sheetUpdate ("Finances_" ++ env.today) env.events.length
          if env.sheetFinancesFails then mainFail env (tr ++ [actO, actF]) "SheetsError"
          else
            let tr2 := tr ++ [actO, actF, Act.emailSend okSubj]
            if env.notifySendFails then mainFail env tr2 "NotificationError"
            else (tr2, .ok ())

/-- process_data() of lambda_function.py: the same construction, table
creation and BigTable write sequence as main, but no sheets stage; its
except block only logs and re-raises, and on success the record counts
are returned. -/
def processData (env : MainEnv) : List Act × Except String (Nat × Nat) :=
  if env.authInitFails then ([], .error "InitError")
  else if env.gcInitFails then ([], .error "InitError")
  else if env.sheetsInitFails then ([], .error "InitError")
  else if env.notifInitFails then ([], .error "InitError")
  else if env.createTableFails then ([], .error "TableError")
  else
    match ordersBtLoop env with
    | (acts1, some e) => (acts1, .error e)
    | (acts1, none) =>
      match financesBtLoop env with
      | (acts2, some e) => (acts1 ++ acts2, .error e)
      | (acts2, none) => (acts1 ++ acts2, .ok (env.orders.length, env.events.length))

/-- The environment of one lambda_handler invocation: the process_data
environment plus the failure behavior of the two NotificationManager
constructions and send_email calls the handler itself performs. -/
structure LamEnv where
  env : MainEnv
  successNotifCtorFails : Bool
  successSendFails : Bool
  errorNotifCtorFails : Bool
  errorSendFails : Bool

/-- The except block of lambda_handler: construct a NotificationManager
and send the error email inside an inner try, so a notification failure
is logged only; the handler then returns statusCode 500. The send call
counts as performed whenever the construction succeeded, even when the
send itself raises. -/
def lamErrorPath (L : LamEnv) (tr : List Act) : List Act × Nat :=
  if L.errorNotifCtorFails then (tr, 500)
  else (tr ++ [Act.emailSend errSubj], 500)

/-- lambda_handler of lambda_function.py: run process_data, then on
success construct a NotificationManager and send the success email; any
exception on that path falls into the except block, which sends the
error email and returns 500; a clean run returns 200. -/
def lambdaRun (L : LamEnv) : List Act × Nat :=
  match processData L.env with
  | (tr, .ok _) =>
    if L.successNotifCtorFails then lamErrorPath L tr
    else
      let tr1 := tr ++ [Act.emailSend okSubj]
      if L.successSendFails then lamErrorPath L tr1
      else (tr1, 200)
  | (tr, .error _) => lamErrorPath L tr

/-- How often send_email was called in a trace. -/
def emailCount (tr : List Act) : Nat :=
  (tr.filter (fun a => match a with | .emailSend _ => true | _ => false)).length

/-- The create_or_update_sheet calls of a trace. -/
def sheetActs (tr : List Act) : List Act :=
  tr.filter (fun a => match a with | .sheetUpdate _ _ => true | _ => false)

/-- The row keys committed to one BigTable table in a trace. -/
def btKeys (table : String) (tr : List Act) : List String :=
  tr.filterMap (fun a => match a with
    | .btWrite t k => if t = table then some k else none
    | _ => none)

/- ===== concrete inputs used by the claim theorems ===== -/

/-- A fully healthy run environment: one fetched order, one fetched
financial event, no failing step, a constant uuid4 draw. -/
def baseEnv : MainEnv :=
  { authInitFails := false, gcInitFails := false, sheetsInitFails := false,
    notifInitFails := false, createTableFails := false,
    orders := [[("order_id", "X1")]], events := [[("event_type", "Fee")]],
    btOrdersFailAt := none, btFinancesFailAt := none,
    sheetOrdersFails := false, sheetFinancesFails := false,
    notifySendFails := false, errorNotifySendFails := false,
    uuids := fun _ => "aaaa", today := "2026-10-12" }

/-- The same run re-executed later: identical fetched records, but the
uuid4 generator draws different values. -/
def rerunEnv : MainEnv := { baseEnv with uuids := fun _ => "bbbb" }

/-- A run in which SPAPIAuth construction raises. -/
def authFailEnv : MainEnv := { baseEnv with authInitFails := true }

/-- A run in which the first BigTable order write raises. -/
def btFailEnv : MainEnv := { baseEnv with btOrdersFailAt := some 0 }

/-- A lambda invocation whose sync work succeeds but whose success
notification send raises. -/
def sendFailLam : LamEnv :=
  { env := baseEnv, successNotifCtorFails := false, successSendFails := true,
    errorNotifCtorFails := false, errorSendFails := false }

/-- A fully healthy lambda invocation. -/
def cleanLam : LamEnv :=
  { env := baseEnv, successNotifCtorFails := false, successSendFails := false,
    errorNotifCtorFails := false, errorSendFails := false }

/-- The BigTable writes a healthy run commits. -/
def cleanTr : List Act :=
  [Act.btWrite "amazon_orders" "order_X1", Act.btWrite "amazon_finances" "finance_aaaa"]

/-- A two-page upstream orders result set. -/
def c4orders : SpApiPaged :=
  ⟨[[[("AmazonOrderId", .vstr "A1")]], [[("AmazonOrderId", .vstr "A2")]]], none⟩

/-- A two-page upstream financial-events result set. -/
def c4finances : SpApiPaged :=
  ⟨[[[("FinancialEventType", .vstr "Fee")]], [[("FinancialEventType", .vstr "Refund")]]], none⟩

/-- A one-page upstream orders result set. -/
def onePageOrders : SpApiPaged := ⟨[[[("AmazonOrderId", .vstr "A1")]]], none⟩

/-- A one-page upstream financial-events result set. -/
def onePageFinances : SpApiPaged := ⟨[[[("FinancialEventType", .vstr "Fee")]]], none⟩

/-- An upstream endpoint whose single request raises. -/
def failingUpstream : SpApiPaged := ⟨[[[("AmazonOrderId", .vstr "A1")]]], some "RequestException"⟩

/-- The i-th distinct column name of the wide spreadsheet batch. -/
def wideKey (i : Nat) : String := String.mk (List.replicate i 'k')

/-- A record spanning 703 distinct columns — one more than the A1:ZZ
range the spreadsheet adapter clears. -/
def wideRec : SheetRec := (List.range 703).map (fun i => (wideKey i, "v"))

/-- The one-record batch of 703 columns. -/
def wideBatch : List SheetRec := [wideRec]

/-- A narrow one-column batch. -/
def smallBatch : List SheetRec := [[("a", "x")]]

/-- A two-column spreadsheet batch for the idempotence witness. -/
def twoColBatch : List SheetRec := [[("a", "1"), ("b", "2")]]

/-- One-column batch persisted after the witness batch. -/
def oneColBatch : List SheetRec := [[("c", "3")]]

/-- Modelled from the spec: the flattening the spec describes, with
dotted-path keys, for comparison against the source's underscore
separator. -/
def specFlattenDotted (rec : List (String × PyVal)) : List (String × PyVal) :=
  pyDictOf (flattenFields "." "" rec)

/-- A record with one nested dict field. -/
def nestedRec : List (String × PyVal) := [("a", .vdict [("b", .vint 1)])]

/-- The CSV batch for the C8 witness: one record with a plain field and
a nested field. -/
def c8batch : List (List (String × PyVal)) :=
  [[("b", .vint 1), ("a", .vdict [("c", .vint 2)])]]

/-- An existing CSV file whose header has the single column a. -/
def c9file : CsvFile := ⟨["a"], [["1"]]⟩

/-- A batch whose record carries a key b absent from that header. -/
def c9batch : List (List (String × PyVal)) := [[("a", .vint 1), ("b", .vint 2)]]

/-- A batch whose record only uses keys of that header. -/
def c9goodBatch : List (List (String × PyVal)) := [[("a", .vint 7)]]

/- ===== theorems ===== -/

/-- C10: calling write_to_csv on the empty batch returns the empty
string and leaves the filesystem untouched — no file is created. -/
theorem write_to_csv_empty_batch (outputDir : String) (fs : FileSystem)
    (filename : String) (flattenOpt : Bool) (ts : String) :
    write_to_csv outputDir fs [] filename flattenOpt ts = ("", fs) := rfl

/-- C1: on identical fetched batches, the order row key is the
deterministic order_ prefix of the order id in both runs, but the
financial-event row key is finance_ followed by whatever uuid4 draws,
so re-running the sync over the same financial event stores it under a
fresh key and duplicates the row. -/
theorem finance_row_key_not_deterministic :
    baseEnv.orders = rerunEnv.orders ∧ baseEnv.events = rerunEnv.events ∧
    btKeys "amazon_orders" (mainRun baseEnv).1 = ["order_X1"] ∧
    btKeys "amazon_orders" (mainRun rerunEnv).1 = ["order_X1"] ∧
    btKeys "amazon_finances" (mainRun baseEnv).1 = ["finance_aaaa"] ∧
    btKeys "amazon_finances" (mainRun rerunEnv).1 = ["finance_bbbb"] ∧
    ("finance_aaaa" : String) ≠ "finance_bbbb" :=
  ⟨rfl, rfl, rfl, rfl, rfl, rfl, by decide⟩

/-- C2: the notifier is not invoked exactly once per run: when
SPAPIAuth construction fails, main's except block hits the unbound
notification name and sends nothing (count 0); when the lambda's
success notification send fails, send_email is invoked twice; a clean
main run invokes it once. -/
theorem notify_not_exactly_once :
    emailCount (mainRun authFailEnv).1 = 0 ∧
    (mainRun authFailEnv).2 = .error "NameError" ∧
    emailCount (lambdaRun sendFailLam).1 = 2 ∧
    emailCount (mainRun baseEnv).1 = 1 :=
  ⟨rfl, rfl, rfl, rfl⟩

/-- C5 counterexample: in this lambda run the sync work succeeds (the
processed counts are returned), only the success notification send
fails, yet the handler reports statusCode 500 instead of success. -/
theorem success_notify_failure_flips_outcome :
    (processData sendFailLam.env).2 = .ok (1, 1) ∧
    sendFailLam.successSendFails = true ∧
    (lambdaRun sendFailLam).2 = 500 :=
  ⟨rfl, rfl, rfl⟩

/-- C5 amended: when process_data fails, the handler reports 500 and a
failing error notification cannot change that; but on the success path
a notification failure reroutes through the error handler: only a run
whose success notification also succeeds reports 200, and a failing
success send turns the report into 500. -/
theorem lambda_notify_outcome (L : LamEnv) :
    (∀ e tr, processData L.env = (tr, .error e) → (lambdaRun L).2 = 500) ∧
    (∀ v tr, processData L.env = (tr, .ok v) → L.successNotifCtorFails = false →
      ((L.successSendFails = false → lambdaRun L = (tr ++ [Act.emailSend okSubj], 200)) ∧
       (L.successSendFails = true → (lambdaRun L).2 = 500))) := by
  constructor
  · intro e tr h
    simp only [lambdaRun, h, lamErrorPath]
    split <;> rfl
  · intro v tr h hc
    constructor
    · intro hs
      simp only [lambdaRun, h, hc, hs, if_false, Bool.false_eq_true]
    · intro hs
      simp only [lambdaRun, h, hc, hs, lamErrorPath, if_false, if_true, Bool.false_eq_true]
      split <;> rfl

/-- C5 amended witness: the healthy lambda run reports 200 with one
success email after its committed writes. -/
theorem lambda_notify_outcome_witness :
    processData cleanLam.env = (cleanTr, .ok (1, 1)) ∧
    cleanLam.successNotifCtorFails = false ∧ cleanLam.successSendFails = false ∧
    lambdaRun cleanLam = (cleanTr ++ [Act.emailSend okSubj], 200) :=
  ⟨rfl, rfl, rfl,
    ((lambda_notify_outcome cleanLam).2 (1, 1) cleanTr rfl rfl).1 rfl⟩

/-- C7: any exception the upstream request raises (network, auth, rate
limit — any error value) is caught inside the fetcher, which returns
the empty list instead of raising; and the two fetches are independent:
the orders result does not depend on the financial-events endpoint and
vice versa. -/
theorem fetch_failure_caught_and_isolated (uo uf uo2 uf2 : SpApiPaged) (e : String) :
    (uo.fail = some e → get_orders uo = []) ∧
    (uf.fail = some e → get_financial_events uf = []) ∧
    (fetchStage uo uf).1 = (fetchStage uo uf2).1 ∧
    (fetchStage uo uf).2 = (fetchStage uo2 uf).2 := by
  refine ⟨?_, ?_, rfl, rfl⟩
  · intro h
    simp only [get_orders, ordersApiCall, h]
    rfl
  · intro h
    simp only [get_financial_events, financesApiCall, h]
    rfl

/-- C7 witness: a concretely failing endpoint yields the empty list for
both record types. -/
theorem fetch_failure_caught_witness :
    failingUpstream.fail = some "RequestException" ∧
    get_orders failingUpstream = [] ∧
    get_financial_events failingUpstream = [] :=
  ⟨rfl,
    (fetch_failure_caught_and_isolated failingUpstream failingUpstream failingUpstream
      failingUpstream "RequestException").1 rfl,
    (fetch_failure_caught_and_isolated failingUpstream failingUpstream failingUpstream
      failingUpstream "RequestException").2.1 rfl⟩

/-- The BigTable write loop emits row commits only: no sheet calls. -/
theorem btLoopGo_no_sheet (table : String)
    (keyOf : Nat → List (String × String) → Except String String) (failAt : Option Nat) :
    ∀ (i : Nat) (rs : List (List (String × String))),
      sheetActs (btLoopGo table keyOf failAt i rs).1 = [] := by
  intro i rs
  induction rs generalizing i with
  | nil => rfl
  | cons r rs ih =>
    simp only [btLoopGo]
    cases keyOf i r with
    | error e => rfl
    | ok key =>
      by_cases h : failAt = some i
      · simp [h, sheetActs]
      · simp only [h, if_false, sheetActs, List.filter_cons]
        exact ih (i + 1)

/-- Filtering for sheet calls distributes over trace concatenation. -/
theorem sheetActs_append (a b : List Act) :
    sheetActs (a ++ b) = sheetActs a ++ sheetActs b := by
  simp [sheetActs, List.filter_append]

/-- A lone email action contains no sheet call. -/
theorem sheetActs_email (s : String) : sheetActs [Act.emailSend s] = [] := rfl

/-- The empty trace contains no sheet call. -/
theorem sheetActs_nil : sheetActs [] = [] := rfl

/-- A sheet call at the head of a trace stays in the filter. -/
theorem sheetActs_sheet_cons (n : String) (k : Nat) (tr : List Act) :
    sheetActs (Act.sheetUpdate n k :: tr) = Act.sheetUpdate n k :: sheetActs tr := by
  simp [sheetActs, List.filter]

/-- An email at the head of a trace is dropped by the filter. -/
theorem sheetActs_email_cons (s : String) (tr : List Act) :
    sheetActs (Act.emailSend s :: tr) = sheetActs tr := by
  simp [sheetActs, List.filter]

/-- C3 counterexample: in this run the wide-column sink fails on its
first order write; the run aborts through the error path and the
spreadsheet sink receives neither batch. -/
theorem sheets_skipped_after_bigtable_failure :
    btFailEnv.btOrdersFailAt = some 0 ∧
    btFailEnv.orders ≠ [] ∧ btFailEnv.events ≠ [] ∧
    (mainRun btFailEnv).2 = .error "BigtableError" ∧
    sheetActs (mainRun btFailEnv).1 = [] :=
  ⟨rfl, by decide, by decide, rfl, rfl⟩

/-- C3 amended: in a run that reaches the persist stage, a wide-column
write failure in either table propagates to main's single except block,
so the spreadsheet sink receives no batch at all; the spreadsheet is
given its batches only when every BigTable write succeeded, the orders
sheet first and the finances sheet only when the orders sheet call did
not itself raise. -/
theorem wide_column_failure_skips_sheets (env : MainEnv)
    (h1 : env.authInitFails = false) (h2 : env.gcInitFails = false)
    (h3 : env.sheetsInitFails = false) (h4 : env.notifInitFails = false)
    (h5 : env.createTableFails = false) :
    ((ordersBtLoop env).2 ≠ none → sheetActs (mainRun env).1 = []) ∧
    ((ordersBtLoop env).2 = none → (financesBtLoop env).2 ≠ none →
      sheetActs (mainRun env).1 = []) ∧
    ((ordersBtLoop env).2 = none → (financesBtLoop env).2 = none →
      sheetActs (mainRun env).1 =
        Act.sheetUpdate ("Orders_" ++ env.today) env.orders.length ::
          (if env.sheetOrdersFails then []
           else [Act.sheetUpdate ("Finances_" ++ env.today) env.events.length])) := by
  have hoNoSheet : sheetActs (ordersBtLoop env).1 = [] := btLoopGo_no_sheet _ _ _ 0 _
  have hfNoSheet : sheetActs (financesBtLoop env).1 = [] := btLoopGo_no_sheet _ _ _ 0 _
  refine ⟨?_, ?_, ?_⟩
  · intro ho
    rcases hol : ordersBtLoop env with ⟨acts1, r1⟩
    cases r1 with
    | none => rw [hol] at ho; simp at ho
    | some e =>
      have ha : sheetActs acts1 = [] := by rw [hol] at hoNoSheet; exact hoNoSheet
      simp [mainRun, h1, h2, h3, h4, h5, hol, mainFail, sheetActs_append, sheetActs_email, ha]
  · intro ho hf
    rcases hol : ordersBtLoop env with ⟨acts1, r1⟩
    rcases hfl : financesBtLoop env with ⟨acts2, r2⟩
    rw [hol] at ho; rw [hfl] at hf
    simp only at ho hf
    cases r1 with
    | some e => exact absurd ho (by simp)
    | none =>
      cases r2 with
      | none => exact absurd rfl hf
      | some e =>
        have ha : sheetActs acts1 = [] := by rw [hol] at hoNoSheet; exact hoNoSheet
        have hb : sheetActs acts2 = [] := by rw [hfl] at hfNoSheet; exact hfNoSheet
        simp [mainRun, h1, h2, h3, h4, h5, hol, hfl, mainFail, sheetActs_append,
          sheetActs_email, ha, hb]
  · intro ho hf
    rcases hol : ordersBtLoop env with ⟨acts1, r1⟩
    rcases hfl : financesBtLoop env with ⟨acts2, r2⟩
    rw [hol] at ho; rw [hfl] at hf
    simp only at ho hf
    subst ho; subst hf
    have ha : sheetActs acts1 = [] := by rw [hol] at hoNoSheet; exact hoNoSheet
    have hb : sheetActs acts2 = [] := by rw [hfl] at hfNoSheet; exact hfNoSheet
    by_cases hso : env.sheetOrdersFails <;>
      by_cases hsf : env.sheetFinancesFails <;>
      by_cases hns : env.notifySendFails <;>
      simp [mainRun, h1, h2, h3, h4, h5, hol, hfl, mainFail, hso, hsf, hns, sheetActs_nil,
        sheetActs_append, sheetActs_email, sheetActs_email_cons, sheetActs_sheet_cons, ha, hb]

/-- C3 amended witness: the healthy run's spreadsheet stage receives
both date-scoped batches. -/
theorem wide_column_failure_skips_sheets_witness :
    baseEnv.authInitFails = false ∧ baseEnv.createTableFails = false ∧
    (ordersBtLoop baseEnv).2 = none ∧ (financesBtLoop baseEnv).2 = none ∧
    sheetActs (mainRun baseEnv).1 =
      Act.sheetUpdate ("Orders_" ++ baseEnv.today) baseEnv.orders.length ::
        (if baseEnv.sheetOrdersFails then []
         else [Act.sheetUpdate ("Finances_" ++ baseEnv.today) baseEnv.events.length]) :=
  ⟨rfl, rfl, rfl, rfl,
    (wide_column_failure_skips_sheets baseEnv rfl rfl rfl rfl rfl).2.2 rfl rfl⟩

/-- Unwrapping the vdict constructor inside the fetch loop is the
identity: mapping the loop body over wrapped dicts is mapping the
normalizer over the dicts. -/
theorem mapM_pyAsDict_map (f : List (String × PyVal) → Except String (List (String × PyVal))) :
    ∀ page : List (List (String × PyVal)),
      (page.map PyVal.vdict).mapM (fun e => do
        let d ← pyAsDict e
        f d) = page.mapM f := by
  intro page
  induction page with
  | nil => rfl
  | cons x xs ih =>
    rw [List.map_cons, List.mapM_cons, List.mapM_cons, ih]
    rfl

/-- A list of at most one page is its own concatenation. -/
theorem headD_eq_flatten {α : Type} (l : List (List α)) (h : l.length ≤ 1) :
    l.headD [] = l.flatten := by
  cases l with
  | nil => rfl
  | cons p ps =>
    cases ps with
    | nil => simp
    | cons q qs => simp at h

/-- C4 counterexample: on a two-page upstream result set, both fetchers
return only the first page's records, not the full result set. -/
theorem fetch_misses_later_pages :
    c4orders.fail = none ∧ c4orders.pages.length = 2 ∧
    (get_orders c4orders).length = 1 ∧ (ordersAllPages c4orders).length = 2 ∧
    get_orders c4orders ≠ ordersAllPages c4orders ∧
    (get_financial_events c4finances).length = 1 ∧
    (financialEventsAllPages c4finances).length = 2 ∧
    get_financial_events c4finances ≠ financialEventsAllPages c4finances :=
  ⟨rfl, rfl, rfl, rfl,
    fun h => absurd (congrArg List.length h) (by decide),
    rfl, rfl,
    fun h => absurd (congrArg List.length h) (by decide)⟩

/-- C4 amended: with no upstream failure, each fetcher returns exactly
the processed first page of the result set — it never follows
NextToken — and therefore equals the full result set only when the
result set has at most one page. -/
theorem fetch_returns_first_page_only (u : SpApiPaged) :
    (u.fail = none →
      get_orders u = ordersOfPage (u.pages.headD []) ∧
      get_financial_events u = financialEventsOfPage (u.pages.headD [])) ∧
    (u.fail = none → u.pages.length ≤ 1 →
      get_orders u = ordersAllPages u ∧
      get_financial_events u = financialEventsAllPages u) := by
  obtain ⟨pages, fl⟩ := u
  constructor
  · intro h
    simp only at h
    subst h
    constructor
    · show (match ((pages.headD []).map PyVal.vdict).mapM (fun e => do
          let d ← pyAsDict e
          normalizeOrder d) with
        | .ok l => l
        | .error _ => []) = ordersOfPage (pages.headD [])
      rw [mapM_pyAsDict_map]
      rfl
    · show (match ((pages.headD []).map PyVal.vdict).mapM (fun e => do
          let d ← pyAsDict e
          normalizeFinancialEvent d) with
        | .ok l => l
        | .error _ => []) = financialEventsOfPage (pages.headD [])
      rw [mapM_pyAsDict_map]
      rfl
  · intro h hlen
    simp only at h hlen
    subst h
    have hfr : pages.headD [] = pages.flatten := headD_eq_flatten pages hlen
    constructor
    · show (match ((pages.headD []).map PyVal.vdict).mapM (fun e => do
          let d ← pyAsDict e
          normalizeOrder d) with
        | .ok l => l
        | .error _ => []) = ordersAllPages ⟨pages, none⟩
      rw [mapM_pyAsDict_map, hfr]
      rfl
    · show (match ((pages.headD []).map PyVal.vdict).mapM (fun e => do
          let d ← pyAsDict e
          normalizeFinancialEvent d) with
        | .ok l => l
        | .error _ => []) = financialEventsAllPages ⟨pages, none⟩
      rw [mapM_pyAsDict_map, hfr]
      rfl

/-- C4 amended witness: on one-page result sets the fetchers do return
the full result set. -/
theorem fetch_returns_first_page_only_witness :
    onePageOrders.fail = none ∧ onePageOrders.pages.length ≤ 1 ∧
    onePageFinances.fail = none ∧ onePageFinances.pages.length ≤ 1 ∧
    get_orders onePageOrders = ordersAllPages onePageOrders ∧
    get_financial_events onePageFinances = financialEventsAllPages onePageFinances :=
  ⟨rfl, by decide, rfl, by decide,
    ((fetch_returns_first_page_only onePageOrders).2 rfl (by decide)).1,
    ((fetch_returns_first_page_only onePageFinances).2 rfl (by decide)).2⟩

/-- Every row of the DataFrame grid has exactly one cell per column. -/
theorem dfGrid_row_length (b : List SheetRec) :
    ∀ row ∈ dfGrid b, row.length = (dfColumns b).length := by
  intro row hrow
  rcases List.mem_cons.mp hrow with h | h
  · subst h; rfl
  · obtain ⟨rec, _, hrec⟩ := List.mem_map.mp h
    rw [← hrec, List.length_map]

/-- C6 amended: persisting the same batch twice through the spreadsheet
adapter leaves the sheet exactly as persisting it once (full-replace
idempotence); and persisting b1 then b2 leaves exactly the state of
persisting b2 alone whenever b1 spans at most the 702 columns (A to ZZ)
that the clear call covers. -/
theorem sheets_full_replace :
    (∀ (data : List SheetRec) (s : Sheet),
      create_or_update_sheet (create_or_update_sheet s data) data =
        create_or_update_sheet s data) ∧
    (∀ (b1 b2 : List SheetRec) (s : Sheet), (dfColumns b1).length ≤ 702 →
      create_or_update_sheet (create_or_update_sheet s b1) b2 =
        create_or_update_sheet s b2) := by
  constructor
  · intro data s
    funext r c
    simp only [create_or_update_sheet, updateCells, clearRange]
    cases hg : (dfGrid data).get? r with
    | none =>
      simp only [hg]
      by_cases hc : c < 702 <;> simp [hc]
    | some row =>
      simp only [hg]
      cases hrow : row.get? c with
      | some v => simp [hrow]
      | none =>
        simp only [hrow]
        by_cases hc : c < 702 <;> simp [hc]
  · intro b1 b2 s hw
    funext r c
    simp only [create_or_update_sheet, updateCells, clearRange]
    cases hg : (dfGrid b2).get? r with
    | some row =>
      simp only [hg]
      cases hrow : row.get? c with
      | some v => simp [hrow]
      | none =>
        simp only [hrow]
        by_cases hc : c < 702
        · simp [hc]
        · simp only [hc, if_false]
          cases hg1 : (dfGrid b1).get? r with
          | none => simp [hg1, hc]
          | some row1 =>
            have hlen : row1.length ≤ 702 := by
              rw [dfGrid_row_length b1 row1 (List.get?_mem hg1)]
              exact hw
            have hnone : row1[c]? = none := by
              rw [← List.get?_eq_getElem?]
              exact List.get?_eq_none.mpr (le_trans hlen (not_lt.mp hc))
            simp [hg1, hnone, hc]
    | none =>
      simp only [hg]
      by_cases hc : c < 702
      · simp [hc]
      · simp only [hc, if_false]
        cases hg1 : (dfGrid b1).get? r with
        | none => simp [hg1, hc]
        | some row1 =>
          have hlen : row1.length ≤ 702 := by
            rw [dfGrid_row_length b1 row1 (List.get?_mem hg1)]
            exact hw
          have hnone : row1[c]? = none := by
            rw [← List.get?_eq_getElem?]
            exact List.get?_eq_none.mpr (le_trans hlen (not_lt.mp hc))
          simp [hg1, hnone, hc]

/-- C6 amended witness: a two-column batch followed by a one-column
batch on the empty sheet leaves exactly the one-column persist. -/
theorem sheets_full_replace_witness :
    (dfColumns twoColBatch).length ≤ 702 ∧
    create_or_update_sheet (create_or_update_sheet emptySheet twoColBatch) oneColBatch =
      create_or_update_sheet emptySheet oneColBatch :=
  ⟨by decide, sheets_full_replace.2 twoColBatch oneColBatch emptySheet (by decide)⟩

/-- Folding a record with fresh, distinct keys into the DataFrame
column accumulator appends exactly those keys. -/
theorem colInsert_append :
    ∀ (r : List (String × String)) (acc : List String),
      (r.map Prod.fst).Nodup → (∀ k ∈ r.map Prod.fst, k ∉ acc) →
      r.foldl (fun a kv => if a.contains kv.1 then a else a ++ [kv.1]) acc =
        acc ++ r.map Prod.fst := by
  intro r
  induction r with
  | nil => intro acc _ _; simp
  | cons kv rest ih =>
    intro acc hnd hdisj
    simp only [List.map_cons] at hnd hdisj
    have hk : kv.1 ∉ acc := hdisj kv.1 (List.mem_cons_self _ _)
    have hcontains : acc.contains kv.1 = false := by
      cases hc : acc.contains kv.1
      · rfl
      · exact absurd (List.mem_of_elem_eq_true hc) hk
    simp only [List.foldl_cons, hcontains, Bool.false_eq_true, if_false]
    rw [ih (acc ++ [kv.1]) (List.Nodup.of_cons hnd) ?_]
    · simp
    · intro k hkmem
      have hne : k ≠ kv.1 := by
        intro he
        subst he
        exact (List.nodup_cons.mp hnd).1 hkmem
      have hna : k ∉ acc := hdisj k (List.mem_cons_of_mem _ hkmem)
      simp [hna, hne]

/-- The wide-batch column names are injective in their index. -/
theorem wideKey_injective : Function.Injective wideKey := by
  intro i j h
  have hd : List.replicate i 'k' = List.replicate j 'k' := congrArg String.data h
  have hl := congrArg List.length hd
  simpa [List.length_replicate] using hl

/-- When the grid covers a cell, persist writes the grid value there. -/
theorem create_or_update_cell_hit (s : Sheet) (data : List SheetRec) (r c : Nat)
    (row : List String) (v : String)
    (h1 : (dfGrid data).get? r = some row) (h2 : row.get? c = some v) :
    create_or_update_sheet s data r c = some v := by
  simp only [create_or_update_sheet, updateCells, clearRange, h1, List.get?_eq_getElem?] at *
  simp [h2]

/-- When the grid has the row but not the column, persist leaves the
cleared prior cell: empty inside A1:ZZ, the old value beyond it. -/
theorem create_or_update_cell_rowmiss (s : Sheet) (data : List SheetRec) (r c : Nat)
    (row : List String)
    (h1 : (dfGrid data).get? r = some row) (h2 : row.get? c = none) :
    create_or_update_sheet s data r c = if c < 702 then none else s r c := by
  simp only [create_or_update_sheet, updateCells, clearRange, h1, List.get?_eq_getElem?] at *
  simp [h2]

/-- The DataFrame columns of a single record with distinct keys are
exactly its keys in order. -/
theorem dfColumns_singleton (r : List (String × String)) (hnd : (r.map Prod.fst).Nodup) :
    dfColumns [r] = r.map Prod.fst := by
  simp only [dfColumns, List.foldl_cons, List.foldl_nil]
  rw [colInsert_append r [] hnd (fun k _ => List.not_mem_nil k)]
  simp

/-- The DataFrame columns of the wide batch are its 703 keys in order. -/
theorem dfColumns_wide : dfColumns wideBatch = (List.range 703).map wideKey := by
  have hkeys : wideRec.map Prod.fst = (List.range 703).map wideKey := by
    simp [wideRec, List.map_map, Function.comp]
  have hnd : (wideRec.map Prod.fst).Nodup := by
    rw [hkeys]
    exact (List.nodup_range 703).map wideKey_injective
  rw [show wideBatch = [wideRec] from rfl, dfColumns_singleton wideRec hnd, hkeys]

/-- C6 counterexample: the clear call covers only columns A through
ZZ, so persisting a 703-column batch and then a narrow batch leaves a
cell of the earlier batch behind — the state differs from persisting
the narrow batch alone, refuting unrestricted full replacement. -/
theorem sheets_replace_residue_beyond_clear_range :
    702 < (dfColumns wideBatch).length ∧
    create_or_update_sheet (create_or_update_sheet emptySheet wideBatch) smallBatch 0 702 ≠
      create_or_update_sheet emptySheet smallBatch 0 702 := by
  have hno : ¬ (702 : Nat) < 702 := by decide
  have hsmallgrid : (dfGrid smallBatch).get? 0 = some ["a"] := rfl
  have hsmall702 : (["a"] : List String).get? 702 = none := rfl
  have hwgrid : (dfGrid wideBatch).get? 0 = some (dfColumns wideBatch) := by
    simp only [dfGrid]
    rfl
  have hwide702 : (dfColumns wideBatch).get? 702 = some (wideKey 702) := by
    rw [dfColumns_wide, List.get?_map, List.get?_range (show 702 < 703 by decide)]
    rfl
  have hS1 : create_or_update_sheet emptySheet wideBatch 0 702 = some (wideKey 702) :=
    create_or_update_cell_hit emptySheet wideBatch 0 702 (dfColumns wideBatch) (wideKey 702)
      hwgrid hwide702
  have hL : create_or_update_sheet (create_or_update_sheet emptySheet wideBatch) smallBatch
      0 702 = some (wideKey 702) := by
    rw [create_or_update_cell_rowmiss (create_or_update_sheet emptySheet wideBatch)
      smallBatch 0 702 ["a"] hsmallgrid hsmall702, if_neg hno, hS1]
  have hR : create_or_update_sheet emptySheet smallBatch 0 702 = none := by
    rw [create_or_update_cell_rowmiss emptySheet smallBatch 0 702 ["a"] hsmallgrid hsmall702,
      if_neg hno]
    rfl
  refine ⟨?_, ?_⟩
  · rw [dfColumns_wide, List.length_map, List.length_range]
    decide
  · rw [hL, hR]
    simp

/-- The Python string order is total. -/
theorem charListLe_total : ∀ as bs : List Char, charListLe as bs = true ∨ charListLe bs as = true := by
  intro as
  induction as with
  | nil => intro bs; left; rfl
  | cons a as ih =>
    intro bs
    cases bs with
    | nil => right; rfl
    | cons b bs =>
      by_cases hab : a < b
      · left; simp [charListLe, hab]
      · by_cases hba : b < a
        · right; simp [charListLe, hba]
        · rcases ih bs with h | h
          · left; simp [charListLe, hab, hba, h]
          · right; simp [charListLe, hab, hba, h]

/-- The Python string order is transitive. -/
theorem charListLe_trans : ∀ as bs cs : List Char,
    charListLe as bs = true → charListLe bs cs = true → charListLe as cs = true := by
  intro as
  induction as with
  | nil => intro bs cs _ _; rfl
  | cons a as ih =>
    intro bs cs h1 h2
    cases bs with
    | nil => simp [charListLe] at h1
    | cons b bs =>
      cases cs with
      | nil => simp [charListLe] at h2
      | cons c cs =>
        simp only [charListLe] at h1 h2 ⊢
        by_cases hab : a < b
        · by_cases hbc : b < c
          · simp [lt_trans hab hbc]
          · by_cases hcb : c < b
            · simp [hbc, hcb] at h2
            · have : a < c := lt_of_lt_of_le hab (not_lt.mp hcb)
              simp [this]
        · by_cases hba : b < a
          · simp [hab, hba] at h1
          · have heq : a = b := le_antisymm (not_lt.mp hba) (not_lt.mp hab)
            subst heq
            simp [hab] at h1
            by_cases hac : a < c
            · simp [hac]
            · by_cases hca : c < a
              · simp [hac, hca] at h2
              · simp [hac, hca] at h2 ⊢
                exact ih bs cs h1 h2

instance : IsTotal String PyStrOrd := ⟨fun a b => charListLe_total a.data b.data⟩

instance : IsTrans String PyStrOrd := ⟨fun a b c h1 h2 => charListLe_trans a.data b.data c.data h1 h2⟩

/-- C8 counterexample: the source flattens with an underscore
separator, so the nested field a.b of the spec appears as the column
a_b, not as a dotted path. -/
theorem flatten_underscore_not_dotted :
    (flattenRecord nestedRec).map Prod.fst = ["a_b"] ∧
    (specFlattenDotted nestedRec).map Prod.fst = ["a.b"] ∧
    ("a_b" : String) ≠ "a.b" :=
  ⟨rfl, rfl, by decide⟩

/-- C8 amended: flattening joins nested dict keys with the underscore
separator (not dots), turns list values into their str() form, and the
header of the written file is the union of all flattened keys of the
batch, sorted in the Python string order. -/
theorem write_to_csv_flatten_properties :
    (∀ (sep parent k : String) (fields rest : List (String × PyVal)),
      flattenFields sep parent ((k, .vdict fields) :: rest) =
        flattenFields sep (if parent = "" then k else parent ++ sep ++ k) fields ++
          flattenFields sep parent rest) ∧
    (∀ (sep parent k : String) (xs : List PyVal) (rest : List (String × PyVal)),
      flattenFields sep parent ((k, .vlist xs) :: rest) =
        ((if parent = "" then k else parent ++ sep ++ k), .vstr (pyStr (.vlist xs))) ::
          flattenFields sep parent rest) ∧
    (∀ (outputDir : String) (fs : FileSystem) (data : List (List (String × PyVal)))
      (filename ts key : String),
      data ≠ [] →
      ∃ filepath fieldnames rows,
        write_to_csv outputDir fs data filename true ts =
          (filepath, fs ++ [(filepath, ⟨fieldnames, rows⟩)]) ∧
        (key ∈ fieldnames ↔ ∃ rec ∈ data, key ∈ (flattenRecord rec).map Prod.fst) ∧
        List.Sorted PyStrOrd fieldnames) := by
  refine ⟨?_, ?_, ?_⟩
  · intro sep parent k fields rest
    simp [flattenFields, flattenVal]
  · intro sep parent k xs rest
    simp [flattenFields, flattenVal]
  · intro outputDir fs data filename ts key hne
    have hempty : data.isEmpty = false := by
      cases data with
      | nil => exact absurd rfl hne
      | cons x xs => rfl
    refine ⟨outputDir ++ "/" ++ filename ++ "_" ++ ts ++ ".csv",
      csvFieldnames (data.map flattenRecord),
      (data.map flattenRecord).map (dictRow (csvFieldnames (data.map flattenRecord))),
      ?_, ?_, ?_⟩
    · simp only [write_to_csv, hempty, Bool.false_eq_true, if_false, if_true]
    · constructor
      · intro h
        have h1 : key ∈ ((data.map flattenRecord).map (fun rec => rec.map Prod.fst)).flatten.dedup := by
          simpa [csvFieldnames, List.mem_insertionSort] using h
        obtain ⟨l, hl, hkey⟩ := List.mem_flatten.mp (List.mem_dedup.mp h1)
        obtain ⟨rec, hrec, rfl⟩ := List.mem_map.mp hl
        obtain ⟨r0, hr0, rfl⟩ := List.mem_map.mp hrec
        exact ⟨r0, hr0, hkey⟩
      · rintro ⟨r0, hr0, hkey⟩
        have h1 : key ∈ ((data.map flattenRecord).map (fun rec => rec.map Prod.fst)).flatten :=
          List.mem_flatten.mpr ⟨(flattenRecord r0).map Prod.fst,
            List.mem_map.mpr ⟨flattenRecord r0, List.mem_map.mpr ⟨r0, hr0, rfl⟩, rfl⟩, hkey⟩
        simpa [csvFieldnames, List.mem_insertionSort, List.mem_dedup] using h1
    · exact List.sorted_insertionSort PyStrOrd _

/-- C8 amended witness: for a concrete one-record batch the written
header contains exactly the flattened keys, sorted. -/
theorem write_to_csv_flatten_properties_witness :
    c8batch ≠ [] ∧
    (∃ filepath fieldnames rows,
      write_to_csv "data" [] c8batch "amazon_orders" true "20260101_000000" =
        (filepath, [] ++ [(filepath, ⟨fieldnames, rows⟩)]) ∧
      ("a_c" ∈ fieldnames ↔ ∃ rec ∈ c8batch, "a_c" ∈ (flattenRecord rec).map Prod.fst) ∧
      List.Sorted PyStrOrd fieldnames) :=
  ⟨List.cons_ne_nil _ _,
    write_to_csv_flatten_properties.2.2 "data" [] c8batch "amazon_orders" "20260101_000000"
      "a_c" (List.cons_ne_nil _ _)⟩

/-- When every key of every record is among the fieldnames, writerows
emits one row per record and raises nothing. -/
theorem writeRowsPartial_all_ok (fieldnames : List String) :
    ∀ rs : List (List (String × PyVal)),
      (∀ rec ∈ rs, ∀ kv ∈ rec, fieldnames.contains kv.1 = true) →
      writeRowsPartial fieldnames rs = (rs.map (dictRow fieldnames), none) := by
  intro rs
  induction rs with
  | nil => intro _; rfl
  | cons r rest ih =>
    intro h
    have hall : r.all (fun kv => fieldnames.contains kv.1) = true :=
      List.all_eq_true.mpr (fun kv hkv => h r (List.mem_cons_self _ _) kv hkv)
    have hrest := ih (fun rec hrec kv hkv => h rec (List.mem_cons_of_mem _ hrec) kv hkv)
    simp only [writeRowsPartial, dictWriterRow]
    rw [if_pos hall]
    simp [hrest]

/-- When some record carries a key outside the fieldnames, writerows
raises ValueError. -/
theorem writeRowsPartial_err (fieldnames : List String) :
    ∀ rs : List (List (String × PyVal)),
      (∃ rec ∈ rs, ∃ kv ∈ rec, fieldnames.contains kv.1 = false) →
      (writeRowsPartial fieldnames rs).2 = some "ValueError" := by
  intro rs
  induction rs with
  | nil => rintro ⟨rec, hrec, _⟩; exact absurd hrec (List.not_mem_nil rec)
  | cons r rest ih =>
    rintro ⟨rec, hrec, kv, hkv, hfalse⟩
    by_cases hr : r.all (fun kv => fieldnames.contains kv.1) = true
    · have hmem : rec ∈ rest := by
        rcases List.mem_cons.mp hrec with heq | hmem
        · subst heq
          exact absurd (List.all_eq_true.mp hr kv hkv) (by rw [hfalse]; simp)
        · exact hmem
      have hrest := ih ⟨rec, hmem, kv, hkv, hfalse⟩
      simp only [writeRowsPartial, dictWriterRow]
      rw [if_pos hr]
      simp [hrest]
    · simp only [writeRowsPartial, dictWriterRow]
      rw [if_neg hr]

/-- C9 counterexample: appending a batch whose record has the new key b
to a file whose header is only a raises ValueError and appends nothing;
the header is not unioned. -/
theorem append_rejects_new_keys :
    append_to_csv (some c9file) c9batch true =
      (some ⟨["a"], [["1"]]⟩, some "ValueError") ∧
    ("b" : String) ∉ c9file.header :=
  ⟨rfl, by decide⟩

/-- C9 amended: appending to an existing file always keeps that file's
own header — no union with the batch keys is formed; a batch whose keys
all lie inside the existing header is appended cleanly, and a batch
containing any key outside it raises ValueError. -/
theorem append_keeps_existing_header (f : CsvFile) (data : List (List (String × PyVal))) :
    (∃ g, (append_to_csv (some f) data true).1 = some g ∧ g.header = f.header) ∧
    (data ≠ [] → (∀ rec ∈ data.map flattenRecord, ∀ kv ∈ rec, f.header.contains kv.1 = true) →
      append_to_csv (some f) data true =
        (some ⟨f.header, f.rows ++ (data.map flattenRecord).map (dictRow f.header)⟩, none)) ∧
    (data ≠ [] → (∃ rec ∈ data.map flattenRecord, ∃ kv ∈ rec, f.header.contains kv.1 = false) →
      (append_to_csv (some f) data true).2 = some "ValueError") := by
  refine ⟨?_, ?_, ?_⟩
  · cases data with
    | nil => exact ⟨f, rfl, rfl⟩
    | cons x xs =>
      exact ⟨⟨f.header, f.rows ++ (writeRowsPartial f.header ((x :: xs).map flattenRecord)).1⟩,
        rfl, rfl⟩
  · intro hne hall
    cases data with
    | nil => exact absurd rfl hne
    | cons x xs =>
      have hw := writeRowsPartial_all_ok f.header ((x :: xs).map flattenRecord) hall
      simp only [append_to_csv, List.isEmpty_cons, Bool.false_eq_true, if_false, if_true, hw]
  · intro hne hex
    cases data with
    | nil => exact absurd rfl hne
    | cons x xs =>
      have hw := writeRowsPartial_err f.header ((x :: xs).map flattenRecord) hex
      simp only [append_to_csv, List.isEmpty_cons, Bool.false_eq_true, if_false, if_true]
      exact hw

/-- C9 amended witness: a batch staying inside the existing header is
appended with that header kept. -/
theorem append_keeps_existing_header_witness :
    c9goodBatch ≠ [] ∧
    (∀ rec ∈ c9goodBatch.map flattenRecord, ∀ kv ∈ rec, c9file.header.contains kv.1 = true) ∧
    append_to_csv (some c9file) c9goodBatch true =
      (some ⟨c9file.header,
        c9file.rows ++ (c9goodBatch.map flattenRecord).map (dictRow c9file.header)⟩, none) :=
  ⟨List.cons_ne_nil _ _, by decide,
    (append_keeps_existing_header c9file c9goodBatch).2.1 (List.cons_ne_nil _ _) (by decide)⟩

end AmazonSP
